import Mathlib

/-!
# Verification of the coffee-milk-beer isochrone layer/cache manager

Shallow embedding of the `IsochroneManager` class (PMTiles variant) together
with the layer-style helpers of `map-config.js` and the time-band
configuration of `config.js`.  State that lives in the MapLibre renderer
(registered sources, registered layers) is modelled explicitly as part of a
`MapState`; the asynchronous `sourcedata`/timeout race and possible
renderer-level `addLayer` rejections are modelled by two boolean environment
oracles carried inside `MapState`.

JavaScript numbers are modelled as `ℚ` (all arithmetic the manager performs
on coordinates is exact at the precision used by the code), JS strings as
`String`, JS `Map`/`Set` as association lists / duplicate-free lists with
insertion-order append.
-/

namespace CoffeeMilkBeer

/-- JavaScript `Math.round`: round half toward positive infinity. -/
def jsRound (q : ℚ) : ℤ := ⌊q + 1/2⌋

/-- `config.js` : `ISOCHRONE_CONFIG.timeIntervals = [5, 10, 15]` (minutes). -/
def timeIntervals : List ℤ := [5, 10, 15]

/-- A caller-supplied location `{lat, lng}` in floating-point degrees. -/
structure Location where
  lat : ℚ
  lng : ℚ
deriving DecidableEq

/-- First-match lookup in an association list; models `Map.get` where
`Map.set` is modelled by consing (the most recent binding wins). -/
def assocLookup {α β : Type} [DecidableEq α] : List (α × β) → α → Option β
  | [], _ => none
  | (k, v) :: rest, a => if k = a then some v else assocLookup rest a

/-- Membership test on a list of strings (models `has`/`getSource`-style
presence checks). -/
def listHas : List String → String → Bool
  | [], _ => false
  | y :: rest, x => if y = x then true else listHas rest x

/-- JS `Set.add`: append if absent (JS sets preserve insertion order and
never contain duplicates). -/
def insertUnique (l : List String) (x : String) : List String :=
  if listHas l x then l else l ++ [x]

/-- JS `Set.delete`: drop the element (a JS set holds at most one copy;
on the duplicate-free lists produced by `insertUnique` this removes the
single occurrence). -/
def eraseFirst : List String → String → List String
  | [], _ => []
  | y :: rest, x => if y = x then rest else y :: eraseFirst rest x

/-! ## map-config.js -/

/-- The nested `colors` literal of `getIsochroneColor` in `map-config.js`:
`colors[poiType]` is the per-category row, `row[timeInterval]` the fill
color, either lookup possibly absent (`undefined` ↦ `none`). -/
def isochroneColorTable (poiType : String) (timeInterval : ℤ) : Option String :=
  if poiType = "coffee" then
    (if timeInterval = 5 then some "rgba(146, 64, 14, 0.3)"
     else if timeInterval = 10 then some "rgba(146, 64, 14, 0.5)"
     else if timeInterval = 15 then some "rgba(146, 64, 14, 0.7)"
     else none)
  else if poiType = "bar" then
    (if timeInterval = 5 then some "rgba(220, 38, 38, 0.3)"
     else if timeInterval = 10 then some "rgba(220, 38, 38, 0.5)"
     else if timeInterval = 15 then some "rgba(220, 38, 38, 0.7)"
     else none)
  else if poiType = "grocery" then
    (if timeInterval = 5 then some "rgba(254, 243, 199, 0.3)"
     else if timeInterval = 10 then some "rgba(254, 243, 199, 0.5)"
     else if timeInterval = 15 then some "rgba(254, 243, 199, 0.7)"
     else none)
  else none

/-- `map-config.js` `getIsochroneColor`:
`colors[poiType]?.[timeInterval] || colors.coffee[timeInterval]`
(a missing row or band falls through to the coffee row, whose entry may
itself be absent for an unconfigured band). -/
def getIsochroneColor (poiType : String) (timeInterval : ℤ) : Option String :=
  match isochroneColorTable poiType timeInterval with
  | some c => some c
  | none => isochroneColorTable "coffee" timeInterval

/-- The flat `colors` literal of `getIsochroneOutlineColor` in
`map-config.js`. -/
def isochroneOutlineTable (poiType : String) : Option String :=
  if poiType = "coffee" then some "#92400e"
  else if poiType = "bar" then some "#dc2626"
  else if poiType = "grocery" then some "#fbbf24"
  else none

/-- `map-config.js` `getIsochroneOutlineColor`:
`colors[poiType] || colors.coffee`; the fallback entry `colors.coffee` is
the literal `"#92400e"`.  The band argument is accepted and ignored exactly
as in the source. -/
def getIsochroneOutlineColor (poiType : String) (_timeInterval : ℤ) : String :=
  match isochroneOutlineTable poiType with
  | some c => c
  | none => "#92400e"

/-- The style descriptor produced by `createLayerConfig` (plus the `source`
and `source-layer` fields that `addIsochroneLayers` patches in before
handing the config to the renderer). -/
structure LayerSpec where
  id : String
  typ : String
  fillColor : Option String
  fillOpacity : ℚ
  fillOutlineColor : String
  filterTime : ℤ
  source : Option String
  sourceLayer : Option String
deriving DecidableEq

/-- `map-config.js` `createLayerConfig(poiType, timeInterval)`. -/
def createLayerConfig (poiType : String) (timeInterval : ℤ) : LayerSpec :=
  { id := poiType ++ "-isochrone-" ++ toString timeInterval
    typ := "fill"
    fillColor := getIsochroneColor poiType timeInterval
    fillOpacity := 6/10
    fillOutlineColor := getIsochroneOutlineColor poiType timeInterval
    filterTime := timeInterval
    source := none
    sourceLayer := none }

/-! ## Renderer (MapLibre map) state -/

/-- The renderer state visible to the manager: the registered source ids,
the registered layers, and two environment oracles — whether a freshly
registered source fires `sourcedata` with `isSourceLoaded` before the
10-second timeout, and whether the renderer rejects (`throw`s on)
`addLayer` for a given layer id. -/
structure MapState where
  sources : List String
  layers : List LayerSpec
  sourceLoadsInTime : String → Bool
  addLayerFails : String → Bool

/-- `map.getSource(id)` truthiness. -/
def MapState.getSource (ms : MapState) (sourceId : String) : Bool :=
  listHas ms.sources sourceId

/-- `map.getLayer(id)` truthiness. -/
def MapState.getLayer (ms : MapState) (layerId : String) : Bool :=
  listHas (ms.layers.map (fun l => l.id)) layerId

/-- `map.addSource(id, …)`: registers the source. -/
def MapState.addSource (ms : MapState) (sourceId : String) : MapState :=
  { ms with sources := ms.sources ++ [sourceId] }

/-- `map.addLayer(config)`: throws (second component `false`) when a layer
with the same id already exists or when the environment oracle says the
renderer rejects the call; otherwise registers the layer. -/
def MapState.addLayer (ms : MapState) (cfg : LayerSpec) : MapState × Bool :=
  if ms.getLayer cfg.id || ms.addLayerFails cfg.id then (ms, false)
  else ({ ms with layers := ms.layers ++ [cfg] }, true)

/-- `map.removeLayer(id)`. -/
def MapState.removeLayer (ms : MapState) (layerId : String) : MapState :=
  { ms with layers := ms.layers.filter (fun l => l.id ≠ layerId) }

/-! ## IsochroneManager data -/

/-- One GeoJSON feature as far as `getStatistics` inspects it:
`properties.time` and `properties.duration` (absent ↦ `none`). -/
structure Feature where
  time : Option ℤ
  duration : Option ℤ
deriving DecidableEq

/-- The result descriptor built by `createMockIsochroneData`. -/
structure IsochroneData where
  typ : String
  features : List Feature
  poi_type : String
  location : Location
  time_intervals : List ℤ
deriving DecidableEq

/-- `createMockIsochroneData(poiType, location)`. -/
def createMockIsochroneData (poiType : String) (location : Location) : IsochroneData :=
  { typ := "FeatureCollection"
    features := []
    poi_type := poiType
    location := location
    time_intervals := timeIntervals }

/-- The cache key `` `${poiType}-${location.lat}-${location.lng}` ``,
modelled by the triple that determines it (JS renders numbers injectively
and the enumerated categories contain no ambiguous separators). -/
abbrev CacheKey := String × ℚ × ℚ

/-- The manager's instance state (`constructor`). -/
structure IsochroneManager where
  map : MapState
  isochroneData : List (CacheKey × IsochroneData)
  activeLayers : List String
  currentLocation : Option Location
  pmtilesSources : List (String × String)

/-- The error carried by a rejected source-registration promise. -/
inductive LoadError
  | sourceLoadTimeout
deriving DecidableEq

/-- The source id
`` `isochrones-${poiType}-${Math.round(lat*1000)}-${Math.round(lng*1000)}` ``
built at the top of `initializePMTilesSource`. -/
def sourceIdFor (poiType : String) (location : Location) : String :=
  "isochrones-" ++ poiType ++ "-" ++ toString (jsRound (location.lat * 1000))
    ++ "-" ++ toString (jsRound (location.lng * 1000))

/-- `getPMTilesFileName(poiType, location)`: both branches of the
Portland-area check return the same file name, faithfully to the source. -/
def getPMTilesFileName (poiType : String) (location : Location) : String :=
  let lat := jsRound (location.lat * 1000)
  let lng := jsRound (location.lng * 1000)
  if 43600 ≤ lat ∧ lat ≤ 43700 ∧ -70250 ≤ lng ∧ lng ≤ -70200 then
    poiType ++ "_Portland_ME_isochrones.pmtiles"
  else
    poiType ++ "_Portland_ME_isochrones.pmtiles"

/-- `initializePMTilesSource(poiType, location)`.  On a `getSource` hit it
records the source id and resolves immediately; otherwise it registers the
source, records the id, and then suspends until the `sourcedata` event for
this source reports it loaded or the 10-second timeout rejects the promise
(the source stays registered either way). -/
def initializePMTilesSource (m : IsochroneManager) (poiType : String)
    (location : Location) : IsochroneManager × Except LoadError Unit :=
  let sourceId := sourceIdFor poiType location
  if m.map.getSource sourceId then
    ({ m with pmtilesSources := (poiType, sourceId) :: m.pmtilesSources }, Except.ok ())
  else
    let m' := { m with
      map := m.map.addSource sourceId
      pmtilesSources := (poiType, sourceId) :: m.pmtilesSources }
    if m.map.sourceLoadsInTime sourceId then (m', Except.ok ())
    else (m', Except.error LoadError.sourceLoadTimeout)

/-- `loadIsochrones(location, poiType)`: records the location, answers from
the cache on an exact-key hit, otherwise registers the source and stores
and returns the mock descriptor, or returns `null` if registration timed
out (storing nothing). -/
def loadIsochrones (m : IsochroneManager) (location : Location) (poiType : String) :
    IsochroneManager × Option IsochroneData :=
  let key : CacheKey := (poiType, location.lat, location.lng)
  let m1 := { m with currentLocation := some location }
  match assocLookup m1.isochroneData key with
  | some d => (m1, some d)
  | none =>
    match initializePMTilesSource m1 poiType location with
    | (m2, Except.ok _) =>
      let mockData := createMockIsochroneData poiType location
      ({ m2 with isochroneData := (key, mockData) :: m2.isochroneData }, some mockData)
    | (m2, Except.error _) => (m2, none)

/-- The layer id `` `${poiType}-isochrone-${time}` ``. -/
def layerIdFor (poiType : String) (time : ℤ) : String :=
  poiType ++ "-isochrone-" ++ toString time

/-- The body of the `forEach` in `addIsochroneLayers` for one time band:
build the config, patch in `source` and `source-layer`, and attempt
`map.addLayer`; a renderer rejection is caught (only a successful add
reaches `activeLayers.add`). -/
def addOneIsochroneLayer (m : IsochroneManager) (poiType : String)
    (pmtilesSource : String) (loc : Location) (time : ℤ) : IsochroneManager :=
  let layerId := layerIdFor poiType time
  let cfg := { createLayerConfig poiType time with
    source := some pmtilesSource
    sourceLayer := some ((getPMTilesFileName poiType loc).replace ".pmtiles" "") }
  match m.map.addLayer cfg with
  | (ms, true) => { m with map := ms, activeLayers := insertUnique m.activeLayers layerId }
  | (ms, false) => { m with map := ms }

/-- `addIsochroneLayers(poiType, data)` (`data` is unused by the source
body).  With no recorded PMTiles source it logs and returns; with a `null`
`currentLocation` the first band's `getPMTilesFileName` call throws and the
outer catch aborts before any layer is added; otherwise each configured
time band is attempted in order. -/
def addIsochroneLayers (m : IsochroneManager) (poiType : String)
    (_data : IsochroneData) : IsochroneManager :=
  match assocLookup m.pmtilesSources poiType with
  | none => m
  | some pmtilesSource =>
    match m.currentLocation with
    | none => m
    | some loc =>
      timeIntervals.foldl
        (fun acc time => addOneIsochroneLayer acc poiType pmtilesSource loc time) m

/-- The body of the `forEach` in `removeIsochroneLayers` for one band:
remove the layer and drop it from the active set only when the renderer
currently has it. -/
def removeOneIsochroneLayer (m : IsochroneManager) (poiType : String)
    (time : ℤ) : IsochroneManager :=
  let layerId := layerIdFor poiType time
  if m.map.getLayer layerId then
    { m with
      map := m.map.removeLayer layerId
      activeLayers := eraseFirst m.activeLayers layerId }
  else m

/-- `removeIsochroneLayers(poiType)`. -/
def removeIsochroneLayers (m : IsochroneManager) (poiType : String) : IsochroneManager :=
  timeIntervals.foldl (fun acc time => removeOneIsochroneLayer acc poiType time) m

/-- The `colors` literal of the manager's own `getIsochroneColor` method —
textually identical to the `map-config.js` table. -/
def IsochroneManager.getIsochroneColor (poiType : String) (timeInterval : ℤ) :
    Option String :=
  match isochroneColorTable poiType timeInterval with
  | some c => some c
  | none => isochroneColorTable "coffee" timeInterval

/-- The manager's `getIsochroneOutlineColor` method (`colors[poiType] ||
colors.coffee`; no band argument in the table). -/
def IsochroneManager.getIsochroneOutlineColor (poiType : String) : String :=
  match isochroneOutlineTable poiType with
  | some c => c
  | none => "#92400e"

/-- `(f.properties.time || f.properties.duration)`: JS `||` falls through
on `undefined` and on `0`. -/
def featureEffectiveTime (f : Feature) : Option ℤ :=
  match f.time with
  | some t => if t = 0 then f.duration else some t
  | none => f.duration

/-- The statistics record built by `getStatistics`. -/
structure Stats where
  total : ℕ
  byTime : List (ℤ × ℕ)
deriving DecidableEq

/-- The statistics computed from a cache entry (`data.features` is always
an array — possibly empty, hence truthy — in every stored descriptor). -/
def statsOfData (data : IsochroneData) : Stats :=
  { total := data.features.length
    byTime := timeIntervals.map (fun time =>
      (time, (data.features.filter (fun f => featureEffectiveTime f = some time)).length)) }

/-- `getStatistics(poiType)`: looks up the cache at the key built from
`this.currentLocation`.  With `currentLocation === null` the JS key is
`` `${poiType}-undefined-undefined` ``, which can never match a stored key
(every stored key embeds an actual location), so the lookup misses. -/
def getStatistics (m : IsochroneManager) (poiType : String) : Option Stats :=
  match m.currentLocation with
  | none => none
  | some loc =>
    match assocLookup m.isochroneData (poiType, loc.lat, loc.lng) with
    | none => none
    | some data => some (statsOfData data)

/-- `setCurrentLocation(location)`. -/
def setCurrentLocation (m : IsochroneManager) (location : Location) : IsochroneManager :=
  { m with currentLocation := some location }

end CoffeeMilkBeer

namespace CoffeeMilkBeer

/-! ## Basic lemmas about the list/assoc helpers -/

theorem assocLookup_cons_self {α β : Type} [DecidableEq α] (k : α) (v : β)
    (l : List (α × β)) : assocLookup ((k, v) :: l) k = some v := by
  simp [assocLookup]

theorem assocLookup_cons_ne {α β : Type} [DecidableEq α] {k k' : α} (h : k' ≠ k)
    (v : β) (l : List (α × β)) : assocLookup ((k', v) :: l) k = assocLookup l k := by
  simp [assocLookup, h]

theorem listHas_iff_mem (l : List String) (x : String) :
    listHas l x = true ↔ x ∈ l := by
  induction l with
  | nil => simp [listHas]
  | cons y rest ih =>
    by_cases h : y = x <;> simp [listHas, h, ih]
    exact fun hx => (h hx.symm).elim

theorem listHas_append (l₁ l₂ : List String) (x : String) :
    listHas (l₁ ++ l₂) x = (listHas l₁ x || listHas l₂ x) := by
  induction l₁ with
  | nil => simp [listHas]
  | cons y rest ih => by_cases h : y = x <;> simp [listHas, h, ih]

/-! ## State-preservation lemmas for the load path -/

theorem initializePMTilesSource_preserves (m : IsochroneManager) (p : String)
    (loc : Location) :
    (initializePMTilesSource m p loc).1.currentLocation = m.currentLocation ∧
    (initializePMTilesSource m p loc).1.isochroneData = m.isochroneData ∧
    (initializePMTilesSource m p loc).1.activeLayers = m.activeLayers ∧
    (initializePMTilesSource m p loc).1.map.layers = m.map.layers ∧
    (initializePMTilesSource m p loc).1.map.sourceLoadsInTime = m.map.sourceLoadsInTime ∧
    (initializePMTilesSource m p loc).1.map.addLayerFails = m.map.addLayerFails := by
  unfold initializePMTilesSource
  by_cases hg : m.map.getSource (sourceIdFor p loc) = true <;>
    simp [hg, MapState.addSource] <;>
    by_cases hl : m.map.sourceLoadsInTime (sourceIdFor p loc) = true <;>
    simp [hl, MapState.addSource]

/-- What a successful `loadIsochrones` call guarantees about the state it
returns: the location is recorded and the returned descriptor is memoized
under the exact `(category, location)` key. -/
theorem loadIsochrones_success_state (m m' : IsochroneManager) (loc : Location)
    (p : String) (d : IsochroneData)
    (h : loadIsochrones m loc p = (m', some d)) :
    m'.currentLocation = some loc ∧
    assocLookup m'.isochroneData (p, loc.lat, loc.lng) = some d := by
  rcases hck : assocLookup m.isochroneData (p, loc.lat, loc.lng) with _ | d0
  · rcases hinit : initializePMTilesSource { m with currentLocation := some loc } p loc
      with ⟨m2, r⟩
    cases r with
    | ok u =>
      have hps := initializePMTilesSource_preserves
        { m with currentLocation := some loc } p loc
      rw [hinit] at hps
      simp only [loadIsochrones, hck, hinit] at h
      injection h with h1 h2
      injection h2 with h2
      subst h1
      subst h2
      refine ⟨hps.1, assocLookup_cons_self _ _ _⟩
    | error e =>
      simp only [loadIsochrones, hck, hinit] at h
      injection h with h1 h2
      exact Option.noConfusion h2
  · simp only [loadIsochrones, hck] at h
    injection h with h1 h2
    injection h2 with h2
    subst h1
    subst h2
    exact ⟨rfl, hck⟩

theorem manager_eta_currentLocation (m : IsochroneManager) (loc : Location)
    (h : m.currentLocation = some loc) :
    ({ m with currentLocation := some loc } : IsochroneManager) = m := by
  cases m
  simp_all

end CoffeeMilkBeer

namespace CoffeeMilkBeer

theorem loadIsochrones_sets_currentLocation (m : IsochroneManager) (loc : Location)
    (p : String) : (loadIsochrones m loc p).1.currentLocation = some loc := by
  rcases hck : assocLookup m.isochroneData (p, loc.lat, loc.lng) with _ | d0
  · rcases hinit : initializePMTilesSource { m with currentLocation := some loc } p loc
      with ⟨m2, r⟩
    have hps := initializePMTilesSource_preserves
      { m with currentLocation := some loc } p loc
    rw [hinit] at hps
    cases r with
    | ok u => simp only [loadIsochrones, hck, hinit]; exact hps.1
    | error e => simp only [loadIsochrones, hck, hinit]; exact hps.1
  · simp only [loadIsochrones, hck]

/-- C10: `loadIsochrones` unconditionally overwrites the manager's current
location with its argument (cache hit, success and failure alike), so any
subsequent `getStatistics` call — for any category — reads the cache entry
keyed by the most recently loaded location, not the one installed by
`setCurrentLocation`. -/
theorem loadIsochrones_overwrites_currentLocation
    (m : IsochroneManager) (locA locB : Location) (p c : String) :
    (loadIsochrones m locB p).1.currentLocation = some locB ∧
    getStatistics (loadIsochrones (setCurrentLocation m locA) locB p).1 c =
      Option.map statsOfData
        (assocLookup (loadIsochrones (setCurrentLocation m locA) locB p).1.isochroneData
          (c, locB.lat, locB.lng)) := by
  refine ⟨loadIsochrones_sets_currentLocation m locB p, ?_⟩
  have hc := loadIsochrones_sets_currentLocation (setCurrentLocation m locA) locB p
  simp only [getStatistics, hc]
  rcases assocLookup (loadIsochrones (setCurrentLocation m locA) locB p).1.isochroneData
      (c, locB.lat, locB.lng) with _ | d <;> rfl

/-- C1: a second `loadIsochrones` call with the identical `(category,
location)` pair after a successful one returns the very same descriptor and
leaves the whole manager state (renderer sources included) unchanged — the
cache answers, no registration side effect happens, the loader is not
invoked again. -/
theorem loadIsochrones_getOrLoad_idempotent
    (m m' : IsochroneManager) (location : Location) (poiType : String)
    (d : IsochroneData)
    (h : loadIsochrones m location poiType = (m', some d)) :
    loadIsochrones m' location poiType = (m', some d) := by
  obtain ⟨hcl, hlk⟩ := loadIsochrones_success_state m m' location poiType d h
  have heta := manager_eta_currentLocation m' location hcl
  simp only [loadIsochrones, heta, hlk]

/-- Shared concrete inputs for the witnesses: the spec's Portland, ME
scenario location, a renderer where every source loads in time and no
`addLayer` call is rejected, and a freshly constructed manager. -/
def demoLoc : Location := { lat := 43.6591, lng := -70.2568 }

def demoMap : MapState :=
  { sources := [], layers := []
    sourceLoadsInTime := fun _ => true
    addLayerFails := fun _ => false }

def demoManager : IsochroneManager :=
  { map := demoMap, isochroneData := [], activeLayers := []
    currentLocation := none, pmtilesSources := [] }

theorem loadIsochrones_getOrLoad_idempotent_witness :
    loadIsochrones (loadIsochrones demoManager demoLoc "coffee").1 demoLoc "coffee" =
      ((loadIsochrones demoManager demoLoc "coffee").1,
        some (createMockIsochroneData "coffee" demoLoc)) :=
  loadIsochrones_getOrLoad_idempotent demoManager
    (loadIsochrones demoManager demoLoc "coffee").1 demoLoc "coffee"
    (createMockIsochroneData "coffee" demoLoc) rfl

/-- C7: `getStatistics` is `null` when the location is unset or when no
cache entry exists for the category at the current location; after a
successful load whose descriptor has an empty feature set it reports total
0 with an explicit 0 for every configured time band. -/
theorem getStatistics_contract (m : IsochroneManager) (c : String) :
    (m.currentLocation = none → getStatistics m c = none) ∧
    (∀ loc, m.currentLocation = some loc →
      assocLookup m.isochroneData (c, loc.lat, loc.lng) = none →
      getStatistics m c = none) ∧
    (∀ loc m' d, loadIsochrones m loc c = (m', some d) → d.features = [] →
      getStatistics m' c = some { total := 0, byTime := [(5, 0), (10, 0), (15, 0)] }) := by
  refine ⟨fun h => by simp [getStatistics, h],
          fun loc hcl hlk => by simp [getStatistics, hcl, hlk], ?_⟩
  intro loc m' d h hfeat
  obtain ⟨hcl, hlk⟩ := loadIsochrones_success_state m m' loc c d h
  simp [getStatistics, hcl, hlk, statsOfData, hfeat, timeIntervals]

theorem getStatistics_contract_witness :
    getStatistics demoManager "bar" = none ∧
    getStatistics (loadIsochrones demoManager demoLoc "bar").1 "bar" =
      some { total := 0, byTime := [(5, 0), (10, 0), (15, 0)] } :=
  ⟨(getStatistics_contract demoManager "bar").1 rfl,
   (getStatistics_contract demoManager "bar").2.2 demoLoc
     (loadIsochrones demoManager demoLoc "bar").1
     (createMockIsochroneData "bar" demoLoc) rfl rfl⟩

/-- C8 counterexample: `(bar, 7)` is an unrecognized (category, band) pair
— the band is not configured — yet the outline lookup returns bar's own
outline color, not the default (coffee) category's outline, and the fill
lookup yields no defined coffee styling either; so the claim that an
unrecognized *pair* falls back to coffee's fill and outline styling fails. -/
theorem styleFallback_cex :
    ((7 : ℤ) ∉ timeIntervals) ∧
    isochroneColorTable "bar" 7 = none ∧
    getIsochroneOutlineColor "bar" 7 ≠ getIsochroneOutlineColor "coffee" 7 ∧
    getIsochroneColor "bar" 7 = none := by
  refine ⟨by decide, rfl, ?_, rfl⟩
  intro h
  exact absurd (congrArg String.data h) (by decide)

/-- C8 (amended): for an *unrecognized category* the style lookup — in
`map-config.js` and in the manager's own copy alike — falls back to the
default (coffee) category's fill and outline styling for every band, rather
than failing; for a recognized category with an unrecognized band the fill
lookup falls through to coffee's (absent) entry for that band while the
outline remains the category's own. -/
theorem styleFallback_unknown_category (c : String) (t : ℤ)
    (h1 : c ≠ "coffee") (h2 : c ≠ "bar") (h3 : c ≠ "grocery") :
    getIsochroneColor c t = getIsochroneColor "coffee" t ∧
    getIsochroneOutlineColor c t = getIsochroneOutlineColor "coffee" t ∧
    IsochroneManager.getIsochroneColor c t =
      IsochroneManager.getIsochroneColor "coffee" t ∧
    IsochroneManager.getIsochroneOutlineColor c =
      IsochroneManager.getIsochroneOutlineColor "coffee" := by
  have hct : isochroneColorTable c t = none := by
    simp [isochroneColorTable, h1, h2, h3]
  have hot : isochroneOutlineTable c = none := by
    simp [isochroneOutlineTable, h1, h2, h3]
  refine ⟨?_, ?_, ?_, ?_⟩
  · rw [getIsochroneColor, getIsochroneColor, hct]
    rcases h : isochroneColorTable "coffee" t with _ | v <;> simp [h]
  · rw [getIsochroneOutlineColor, getIsochroneOutlineColor, hot]; rfl
  · rw [IsochroneManager.getIsochroneColor, IsochroneManager.getIsochroneColor, hct]
    rcases h : isochroneColorTable "coffee" t with _ | v <;> simp [h]
  · rw [IsochroneManager.getIsochroneOutlineColor,
      IsochroneManager.getIsochroneOutlineColor, hot]; rfl

theorem styleFallback_unknown_category_witness :
    getIsochroneColor "pub" 5 = getIsochroneColor "coffee" 5 ∧
    getIsochroneOutlineColor "pub" 5 = getIsochroneOutlineColor "coffee" 5 ∧
    IsochroneManager.getIsochroneColor "pub" 5 =
      IsochroneManager.getIsochroneColor "coffee" 5 ∧
    IsochroneManager.getIsochroneOutlineColor "pub" =
      IsochroneManager.getIsochroneOutlineColor "coffee" :=
  styleFallback_unknown_category "pub" 5 (by decide) (by decide) (by decide)

/-- C9: for the Portland scenario — location `{lat: 43.6591, lng:
-70.2568}`, category `coffee`, bands `[5,10,15]` — after a successful load
and `addIsochroneLayers`, the Active Layer Set is exactly
`coffee-isochrone-5/10/15` (in band order) and every layer handed to the
renderer carries fill-opacity 0.6. -/
theorem scenario_portland_coffee_layers :
    (addIsochroneLayers (loadIsochrones demoManager demoLoc "coffee").1 "coffee"
        (createMockIsochroneData "coffee" demoLoc)).activeLayers =
      ["coffee-isochrone-5", "coffee-isochrone-10", "coffee-isochrone-15"] ∧
    ∀ l ∈ (addIsochroneLayers (loadIsochrones demoManager demoLoc "coffee").1 "coffee"
        (createMockIsochroneData "coffee" demoLoc)).map.layers,
      l.fillOpacity = 6/10 := by
  constructor
  · rfl
  · intro l hl
    have h2 : l.fillOpacity ∈
        ((addIsochroneLayers (loadIsochrones demoManager demoLoc "coffee").1 "coffee"
          (createMockIsochroneData "coffee" demoLoc)).map.layers.map
            (fun l => l.fillOpacity)) :=
      List.mem_map_of_mem _ hl
    rw [show (addIsochroneLayers (loadIsochrones demoManager demoLoc "coffee").1 "coffee"
          (createMockIsochroneData "coffee" demoLoc)).map.layers.map
            (fun l => l.fillOpacity) =
        [6/10, 6/10, 6/10] from rfl] at h2
    simpa using h2

end CoffeeMilkBeer

namespace CoffeeMilkBeer

/-- The exact state produced by a `loadIsochrones` call whose source
registration times out: the location is recorded, the source stays
registered (not rolled back), the source id is recorded for the category,
no cache entry is stored, and the call returns `null`. -/
theorem loadIsochrones_timeout_state (m : IsochroneManager) (loc : Location)
    (c : String)
    (hkey : assocLookup m.isochroneData (c, loc.lat, loc.lng) = none)
    (hsrc : m.map.getSource (sourceIdFor c loc) = false)
    (hslow : m.map.sourceLoadsInTime (sourceIdFor c loc) = false) :
    loadIsochrones m loc c =
      ({ m with
          currentLocation := some loc
          map := m.map.addSource (sourceIdFor c loc)
          pmtilesSources := (c, sourceIdFor c loc) :: m.pmtilesSources }, none) := by
  simp only [loadIsochrones, hkey, initializePMTilesSource, hsrc, hslow,
    Bool.false_eq_true, if_false]

/-- Any `loadIsochrones` call whose source either is already registered or
loads within the timeout returns a descriptor (cache hit, immediate
`getSource` hit, or fresh registration alike). -/
theorem loadIsochrones_isSome_of_loads (m : IsochroneManager) (loc : Location)
    (c : String)
    (h : m.map.sourceLoadsInTime (sourceIdFor c loc) = true) :
    (loadIsochrones m loc c).2.isSome = true := by
  rcases hck : assocLookup m.isochroneData (c, loc.lat, loc.lng) with _ | d0
  · rcases hs : m.map.getSource (sourceIdFor c loc) with _ | _
    · simp only [loadIsochrones, hck, initializePMTilesSource, hs, h,
        Bool.false_eq_true, if_false, if_true]
      rfl
    · simp only [loadIsochrones, hck, initializePMTilesSource, hs, if_true]
      rfl
  · simp only [loadIsochrones, hck]
    rfl

/-- C3: when a source registration is not confirmed within the 10-second
window, `loadIsochrones` returns `null` for that category, the source stays
registered, no cache entry is stored under the `(category, location)` key —
and a sibling category requested next at the same location whose source
loads in time still succeeds. -/
theorem sourceLoadTimeout_isolated (m : IsochroneManager) (loc : Location)
    (c1 c2 : String)
    (hkey : assocLookup m.isochroneData (c1, loc.lat, loc.lng) = none)
    (hsrc : m.map.getSource (sourceIdFor c1 loc) = false)
    (hslow : m.map.sourceLoadsInTime (sourceIdFor c1 loc) = false)
    (hfast : m.map.sourceLoadsInTime (sourceIdFor c2 loc) = true) :
    (loadIsochrones m loc c1).2 = none ∧
    (loadIsochrones m loc c1).1.map.getSource (sourceIdFor c1 loc) = true ∧
    assocLookup (loadIsochrones m loc c1).1.isochroneData (c1, loc.lat, loc.lng) = none ∧
    (loadIsochrones (loadIsochrones m loc c1).1 loc c2).2.isSome = true := by
  have hstate := loadIsochrones_timeout_state m loc c1 hkey hsrc hslow
  rw [hstate]
  refine ⟨rfl, ?_, hkey, ?_⟩
  · show listHas (m.map.sources ++ [sourceIdFor c1 loc]) (sourceIdFor c1 loc) = true
    rw [listHas_append]
    simp [listHas]
  · apply loadIsochrones_isSome_of_loads
    exact hfast

/-- A renderer in which only the coffee source for the demo location fires
`sourcedata` in time; every other source registration times out. -/
def slowMap : MapState :=
  { sources := [], layers := []
    sourceLoadsInTime := fun s => s == "isochrones-coffee-43659--70257"
    addLayerFails := fun _ => false }

def slowManager : IsochroneManager :=
  { map := slowMap, isochroneData := [], activeLayers := []
    currentLocation := none, pmtilesSources := [] }

theorem jsRound_demoLat : jsRound (demoLoc.lat * 1000) = 43659 := by
  show jsRound ((43.6591 : ℚ) * 1000) = 43659
  rw [jsRound, Int.floor_eq_iff] <;> norm_num

theorem jsRound_demoLng : jsRound (demoLoc.lng * 1000) = -70257 := by
  show jsRound ((-70.2568 : ℚ) * 1000) = -70257
  rw [jsRound, Int.floor_eq_iff] <;> norm_num

theorem sourceIdFor_demo (c : String) :
    sourceIdFor c demoLoc = "isochrones-" ++ c ++ "-" ++ "43659" ++ "-" ++ "-70257" := by
  rw [sourceIdFor, jsRound_demoLat, jsRound_demoLng]
  rfl

theorem sourceLoadTimeout_isolated_witness :
    (loadIsochrones slowManager demoLoc "bar").2 = none ∧
    (loadIsochrones slowManager demoLoc "bar").1.map.getSource
      (sourceIdFor "bar" demoLoc) = true ∧
    assocLookup (loadIsochrones slowManager demoLoc "bar").1.isochroneData
      ("bar", demoLoc.lat, demoLoc.lng) = none ∧
    (loadIsochrones (loadIsochrones slowManager demoLoc "bar").1 demoLoc "coffee").2.isSome
      = true :=
  sourceLoadTimeout_isolated slowManager demoLoc "bar" "coffee" rfl rfl
    (by rw [show slowManager.map = slowMap from rfl, slowMap, sourceIdFor_demo]; decide)
    (by rw [show slowManager.map = slowMap from rfl, slowMap, sourceIdFor_demo]; decide)

end CoffeeMilkBeer

namespace CoffeeMilkBeer

theorem digitChar_inj_lt10 (a b : ℕ) (ha : a < 10) (hb : b < 10)
    (h : Nat.digitChar a = Nat.digitChar b) : a = b := by
  have key : ∀ x y : Fin 10, Nat.digitChar x.val = Nat.digitChar y.val → x = y := by decide
  exact congrArg Fin.val (key ⟨a, ha⟩ ⟨b, hb⟩ h)

theorem digitChar_ne_dash (a : ℕ) (ha : a < 10) : Nat.digitChar a ≠ '-' := by
  have key : ∀ x : Fin 10, Nat.digitChar x.val ≠ '-' := by decide
  exact key ⟨a, ha⟩

theorem toDigitsCore_eq_digits : ∀ (f n : ℕ) (ds : List Char), 0 < n → n ≤ f →
    Nat.toDigitsCore 10 f n ds = ((Nat.digits 10 n).map Nat.digitChar).reverse ++ ds := by
  intro f
  induction f with
  | zero => intro n ds h0 hf; omega
  | succ f ih =>
    intro n ds h0 hf
    rw [Nat.toDigitsCore]
    by_cases hdiv : n / 10 = 0
    · simp only [hdiv, if_true]
      rw [Nat.digits_def' (by norm_num : (1:ℕ) < 10) h0, hdiv]
      simp
    · simp only [hdiv, if_false]
      have hpos : 0 < n / 10 := Nat.pos_of_ne_zero hdiv
      have hlt : n / 10 < n := Nat.div_lt_self h0 (by norm_num)
      rw [ih (n / 10) _ hpos (by omega)]
      rw [Nat.digits_def' (by norm_num : (1:ℕ) < 10) h0]
      simp

end CoffeeMilkBeer
namespace CoffeeMilkBeer

theorem natRepr_data (n : ℕ) (h : 0 < n) :
    (Nat.repr n).data = ((Nat.digits 10 n).map Nat.digitChar).reverse := by
  show (Nat.toDigits 10 n).asString.data = _
  rw [Nat.toDigits, toDigitsCore_eq_digits (n+1) n [] h (by omega)]
  simp [List.asString]

theorem natRepr_all_digits (n : ℕ) :
    ∀ ch ∈ (Nat.repr n).data, ∃ d, d < 10 ∧ ch = Nat.digitChar d := by
  rcases Nat.eq_zero_or_pos n with rfl | hpos
  · intro ch hch
    refine ⟨0, by norm_num, ?_⟩
    have : (Nat.repr 0).data = ['0'] := rfl
    rw [this] at hch
    simpa using hch
  · intro ch hch
    rw [natRepr_data n hpos] at hch
    rw [List.mem_reverse] at hch
    obtain ⟨d, hd, rfl⟩ := List.mem_map.mp hch
    exact ⟨d, Nat.digits_lt_base (by norm_num) hd, rfl⟩

theorem natRepr_no_dash (n : ℕ) : '-' ∉ (Nat.repr n).data := by
  intro hmem
  obtain ⟨d, hd, hch⟩ := natRepr_all_digits n _ hmem
  exact digitChar_ne_dash d hd hch.symm

theorem natRepr_ne_nil (n : ℕ) : (Nat.repr n).data ≠ [] := by
  rcases Nat.eq_zero_or_pos n with rfl | hpos
  · intro h; exact absurd h (by decide)
  · rw [natRepr_data n hpos]
    simp [Nat.digits_ne_nil_iff_ne_zero, Nat.pos_iff_ne_zero.mp hpos]

theorem map_digitChar_inj : ∀ (l1 l2 : List ℕ), (∀ x ∈ l1, x < 10) → (∀ x ∈ l2, x < 10) →
    l1.map Nat.digitChar = l2.map Nat.digitChar → l1 = l2 := by
  intro l1
  induction l1 with
  | nil => intro l2 _ _ h; cases l2 <;> simp_all
  | cons a t ih =>
    intro l2 h1 h2 h
    cases l2 with
    | nil => simp at h
    | cons b t2 =>
      simp only [List.map_cons, List.cons.injEq] at h
      have ha := h1 a (by simp)
      have hb := h2 b (by simp)
      have : a = b := digitChar_inj_lt10 a b ha hb h.1
      subst this
      rw [ih t2 (fun x hx => h1 x (by simp [hx])) (fun x hx => h2 x (by simp [hx])) h.2]

theorem natRepr_inj (m n : ℕ) (h : Nat.repr m = Nat.repr n) : m = n := by
  have hd := congrArg String.data h
  rcases Nat.eq_zero_or_pos m with rfl | hm <;> rcases Nat.eq_zero_or_pos n with rfl | hn
  · rfl
  · exfalso
    rw [show (Nat.repr 0).data = ['0'] from rfl, natRepr_data n hn] at hd
    have hrev : (Nat.digits 10 n).map Nat.digitChar = ['0'] := by
      have := congrArg List.reverse hd
      simpa using this.symm
    rcases hmap : (Nat.digits 10 n).map Nat.digitChar with _ | ⟨c, t⟩
    · rw [hmap] at hrev; cases hrev
    · rw [hmap] at hrev
      rcases hdig : Nat.digits 10 n with _ | ⟨d, dt⟩
      · rw [hdig] at hmap; cases hmap
      · rw [hdig] at hmap
        simp only [List.map_cons, List.cons.injEq] at hmap hrev
        have hd10 : d < 10 := Nat.digits_lt_base (by norm_num) (by rw [hdig]; simp)
        have hdt : dt.map Nat.digitChar = [] := by
          rw [← hmap.2] at hrev; exact hrev.2
        have hdtnil : dt = [] := by
          cases dt with
          | nil => rfl
          | cons x xs => simp at hdt
        have hc0 : Nat.digitChar d = '0' := by rw [hmap.1]; exact hrev.1
        have hd0 : d = 0 := digitChar_inj_lt10 d 0 hd10 (by norm_num) hc0
        have : n = Nat.ofDigits 10 (Nat.digits 10 n) := (Nat.ofDigits_digits 10 n).symm
        rw [hdig, hdtnil, hd0] at this
        simp [Nat.ofDigits] at this
        omega
  · exfalso
    rw [show (Nat.repr 0).data = ['0'] from rfl, natRepr_data m hm] at hd
    have hrev : (Nat.digits 10 m).map Nat.digitChar = ['0'] := by
      have := congrArg List.reverse hd
      simpa using this
    rcases hdig : Nat.digits 10 m with _ | ⟨d, dt⟩
    · rw [hdig] at hrev; cases hrev
    · rw [hdig] at hrev
      simp only [List.map_cons, List.cons.injEq] at hrev
      have hd10 : d < 10 := Nat.digits_lt_base (by norm_num) (by rw [hdig]; simp)
      have hdtnil : dt = [] := by
        cases dt with
        | nil => rfl
        | cons x xs => simp at hrev
      have hd0 : d = 0 := digitChar_inj_lt10 d 0 hd10 (by norm_num) hrev.1
      have : m = Nat.ofDigits 10 (Nat.digits 10 m) := (Nat.ofDigits_digits 10 m).symm
      rw [hdig, hdtnil, hd0] at this
      simp [Nat.ofDigits] at this
      omega
  · rw [natRepr_data m hm, natRepr_data n hn] at hd
    have hmapeq : (Nat.digits 10 m).map Nat.digitChar = (Nat.digits 10 n).map Nat.digitChar := by
      have := congrArg List.reverse hd
      simpa using this
    have hdig : Nat.digits 10 m = Nat.digits 10 n :=
      map_digitChar_inj _ _ (fun x hx => Nat.digits_lt_base (by norm_num) hx)
        (fun x hx => Nat.digits_lt_base (by norm_num) hx) hmapeq
    exact Nat.digits_inj_iff.mp hdig

end CoffeeMilkBeer
namespace CoffeeMilkBeer

theorem intToString_ofNat (m : ℕ) : toString (Int.ofNat m) = Nat.repr m := rfl

theorem intToString_negSucc (m : ℕ) :
    toString (Int.negSucc m) = "-" ++ Nat.repr (m + 1) := rfl

theorem intToString_no_dash_tail (i : ℤ) :
    ∀ ch ∈ (toString i).data, ch = '-' → ∃ m : ℕ, i = Int.negSucc m ∧
      (toString i).data = '-' :: (Nat.repr (m + 1)).data := by
  intro ch hch hdash
  cases i with
  | ofNat m =>
    rw [intToString_ofNat] at hch
    exact absurd (hdash ▸ hch) (natRepr_no_dash m)
  | negSucc m => exact ⟨m, rfl, rfl⟩

theorem intToString_inj (i j : ℤ) (h : toString i = toString j) : i = j := by
  cases i with
  | ofNat m =>
    cases j with
    | ofNat n =>
      rw [intToString_ofNat, intToString_ofNat] at h
      exact congrArg Int.ofNat (natRepr_inj m n h)
    | negSucc n =>
      exfalso
      rw [intToString_ofNat, intToString_negSucc] at h
      have hd := congrArg String.data h
      rw [String.data_append] at hd
      have : '-' ∈ (Nat.repr m).data := by rw [hd]; simp [show ("-" : String).data = ['-'] from rfl]
      exact natRepr_no_dash m this
  | negSucc m =>
    cases j with
    | ofNat n =>
      exfalso
      rw [intToString_ofNat, intToString_negSucc] at h
      have hd := congrArg String.data h
      rw [String.data_append] at hd
      have : '-' ∈ (Nat.repr n).data := by rw [← hd]; simp [show ("-" : String).data = ['-'] from rfl]
      exact natRepr_no_dash n this
    | negSucc n =>
      rw [intToString_negSucc, intToString_negSucc] at h
      have hd := congrArg String.data h
      rw [String.data_append, String.data_append] at hd
      simp only [show ("-" : String).data = ['-'] from rfl, List.singleton_append,
        List.cons.injEq] at hd
      have hmn : m = n := by
        have := natRepr_inj (m + 1) (n + 1) (String.ext hd.2)
        omega
      rw [hmn]

theorem append_dash_inj : ∀ (l1 l2 m1 m2 : List Char), '-' ∉ l1 → '-' ∉ l2 →
    l1 ++ '-' :: m1 = l2 ++ '-' :: m2 → l1 = l2 ∧ m1 = m2 := by
  intro l1
  induction l1 with
  | nil =>
    intro l2 m1 m2 _ h2 h
    cases l2 with
    | nil => simpa using h
    | cons c t =>
      exfalso
      simp only [List.nil_append, List.cons_append, List.cons.injEq] at h
      exact h2 (h.1 ▸ List.mem_cons_self c t)
  | cons c t ih =>
    intro l2 m1 m2 h1 h2 h
    cases l2 with
    | nil =>
      exfalso
      simp only [List.nil_append, List.cons_append, List.cons.injEq] at h
      exact h1 (h.1.symm ▸ List.mem_cons_self c t)
    | cons c2 t2 =>
      simp only [List.cons_append, List.cons.injEq] at h
      obtain ⟨hc, hrest⟩ := h
      subst hc
      have := ih t2 m1 m2 (fun hm => h1 (List.mem_cons_of_mem _ hm))
        (fun hm => h2 (List.mem_cons_of_mem _ hm)) hrest
      exact ⟨by rw [this.1], this.2⟩

end CoffeeMilkBeer
namespace CoffeeMilkBeer

theorem intPair_toString_inj (a b c d : ℤ)
    (h : toString a ++ "-" ++ toString b = toString c ++ "-" ++ toString d) :
    a = c ∧ b = d := by
  have hd := congrArg String.data h
  simp only [String.data_append, show ("-" : String).data = ['-'] from rfl,
    List.append_assoc, List.singleton_append] at hd
  cases a with
  | ofNat m =>
    cases c with
    | ofNat p =>
      rw [intToString_ofNat, intToString_ofNat] at hd
      obtain ⟨h1, h2⟩ := append_dash_inj _ _ _ _ (natRepr_no_dash m) (natRepr_no_dash p) hd
      exact ⟨congrArg Int.ofNat (natRepr_inj m p (String.ext h1)),
        intToString_inj b d (String.ext h2)⟩
    | negSucc p =>
      exfalso
      rw [intToString_ofNat, intToString_negSucc] at hd
      simp only [String.data_append, show ("-" : String).data = ['-'] from rfl,
        List.singleton_append] at hd
      rcases hne : (Nat.repr m).data with _ | ⟨ch, t⟩
      · exact natRepr_ne_nil m hne
      · rw [hne] at hd
        simp only [List.cons_append, List.cons.injEq] at hd
        exact natRepr_no_dash m (hne ▸ (hd.1 ▸ List.mem_cons_self ch t))
  | negSucc m =>
    cases c with
    | ofNat p =>
      exfalso
      rw [intToString_negSucc, intToString_ofNat] at hd
      simp only [String.data_append, show ("-" : String).data = ['-'] from rfl,
        List.singleton_append] at hd
      rcases hne : (Nat.repr p).data with _ | ⟨ch, t⟩
      · exact natRepr_ne_nil p hne
      · rw [hne] at hd
        simp only [List.cons_append, List.cons.injEq] at hd
        exact natRepr_no_dash p (hne ▸ (hd.1.symm ▸ List.mem_cons_self ch t))
    | negSucc p =>
      rw [intToString_negSucc, intToString_negSucc] at hd
      simp only [String.data_append, show ("-" : String).data = ['-'] from rfl,
        List.singleton_append, List.cons_append, List.cons.injEq, true_and] at hd
      obtain ⟨h1, h2⟩ := append_dash_inj _ _ _ _ (natRepr_no_dash (m+1))
        (natRepr_no_dash (p+1)) hd
      have hmp : m = p := by
        have := natRepr_inj (m+1) (p+1) (String.ext h1)
        omega
      exact ⟨by rw [hmp], intToString_inj b d (String.ext h2)⟩

theorem sourceIdFor_inj (p : String) (l1 l2 : Location)
    (h : sourceIdFor p l1 = sourceIdFor p l2) :
    jsRound (l1.lat * 1000) = jsRound (l2.lat * 1000) ∧
    jsRound (l1.lng * 1000) = jsRound (l2.lng * 1000) := by
  rw [sourceIdFor, sourceIdFor] at h
  have hd := congrArg String.data h
  simp only [String.data_append, List.append_assoc] at hd
  have hc1 := List.append_cancel_left hd
  have hc2 := List.append_cancel_left hc1
  have hc3 := List.append_cancel_left hc2
  have hstr : toString (jsRound (l1.lat * 1000)) ++ "-" ++ toString (jsRound (l1.lng * 1000)) =
      toString (jsRound (l2.lat * 1000)) ++ "-" ++ toString (jsRound (l2.lng * 1000)) := by
    apply String.ext
    simp only [String.data_append, List.append_assoc]
    exact hc3
  exact intPair_toString_inj _ _ _ _ hstr

end CoffeeMilkBeer
namespace CoffeeMilkBeer

theorem loadIsochrones_cache_hit (m : IsochroneManager) (loc : Location) (c : String)
    (d : IsochroneData)
    (hkey : assocLookup m.isochroneData (c, loc.lat, loc.lng) = some d) :
    loadIsochrones m loc c = ({ m with currentLocation := some loc }, some d) := by
  simp only [loadIsochrones, hkey]

theorem loadIsochrones_source_hit (m : IsochroneManager) (loc : Location) (c : String)
    (hkey : assocLookup m.isochroneData (c, loc.lat, loc.lng) = none)
    (hsrc : m.map.getSource (sourceIdFor c loc) = true) :
    loadIsochrones m loc c =
      ({ m with
          currentLocation := some loc
          pmtilesSources := (c, sourceIdFor c loc) :: m.pmtilesSources
          isochroneData := ((c, loc.lat, loc.lng), createMockIsochroneData c loc) ::
            m.isochroneData }, some (createMockIsochroneData c loc)) := by
  simp only [loadIsochrones, hkey, initializePMTilesSource, hsrc, if_true]

theorem loadIsochrones_fresh_ok (m : IsochroneManager) (loc : Location) (c : String)
    (hkey : assocLookup m.isochroneData (c, loc.lat, loc.lng) = none)
    (hsrc : m.map.getSource (sourceIdFor c loc) = false)
    (hload : m.map.sourceLoadsInTime (sourceIdFor c loc) = true) :
    loadIsochrones m loc c =
      ({ m with
          currentLocation := some loc
          map := m.map.addSource (sourceIdFor c loc)
          pmtilesSources := (c, sourceIdFor c loc) :: m.pmtilesSources
          isochroneData := ((c, loc.lat, loc.lng), createMockIsochroneData c loc) ::
            m.isochroneData }, some (createMockIsochroneData c loc)) := by
  simp only [loadIsochrones, hkey, initializePMTilesSource, hsrc, hload,
    Bool.false_eq_true, if_false, if_true]

theorem loadIsochrones_sources_of_present (m : IsochroneManager) (loc : Location)
    (c : String) (h : m.map.getSource (sourceIdFor c loc) = true) :
    (loadIsochrones m loc c).1.map.sources = m.map.sources := by
  rcases hck : assocLookup m.isochroneData (c, loc.lat, loc.lng) with _ | d
  · rw [loadIsochrones_source_hit m loc c hck h]
  · rw [loadIsochrones_cache_hit m loc c d hck]

theorem loadIsochrones_sources_of_fresh (m : IsochroneManager) (loc : Location)
    (c : String)
    (hkey : assocLookup m.isochroneData (c, loc.lat, loc.lng) = none)
    (hsrc : m.map.getSource (sourceIdFor c loc) = false) :
    (loadIsochrones m loc c).1.map.sources = m.map.sources ++ [sourceIdFor c loc] := by
  rcases hl : m.map.sourceLoadsInTime (sourceIdFor c loc) with _ | _
  · rw [loadIsochrones_timeout_state m loc c hkey hsrc hl]
    rfl
  · rw [loadIsochrones_fresh_ok m loc c hkey hsrc hl]
    rfl

theorem loadIsochrones_fresh_facts (m : IsochroneManager) (loc : Location) (c : String)
    (hkey : assocLookup m.isochroneData (c, loc.lat, loc.lng) = none)
    (hsrc : m.map.getSource (sourceIdFor c loc) = false) :
    (loadIsochrones m loc c).1.map.sources = m.map.sources ++ [sourceIdFor c loc] ∧
    (loadIsochrones m loc c).1.map.sourceLoadsInTime = m.map.sourceLoadsInTime ∧
    ∀ k : CacheKey, k ≠ (c, loc.lat, loc.lng) →
      assocLookup (loadIsochrones m loc c).1.isochroneData k =
        assocLookup m.isochroneData k := by
  rcases hl : m.map.sourceLoadsInTime (sourceIdFor c loc) with _ | _
  · rw [loadIsochrones_timeout_state m loc c hkey hsrc hl]
    exact ⟨rfl, rfl, fun k _ => rfl⟩
  · rw [loadIsochrones_fresh_ok m loc c hkey hsrc hl]
    refine ⟨rfl, rfl, fun k hk => ?_⟩
    exact assocLookup_cons_ne (fun he => hk he.symm) _ _

/-- C2: the Source Key is a fixed function of the category and the
quantized (3-decimal-digit) location.  Loading two locations (same
category, both uncached, neither source registered) registers exactly one
renderer source when they quantize alike, and two distinct sources when
their quantizations differ — regardless of whether either registration
times out. -/
theorem sourceKey_quantization_registration
    (m : IsochroneManager) (c : String) (l1 l2 : Location)
    (hk1 : assocLookup m.isochroneData (c, l1.lat, l1.lng) = none)
    (hk2 : assocLookup m.isochroneData (c, l2.lat, l2.lng) = none)
    (hs1 : m.map.getSource (sourceIdFor c l1) = false)
    (hs2 : m.map.getSource (sourceIdFor c l2) = false) :
    ((jsRound (l1.lat * 1000) = jsRound (l2.lat * 1000) ∧
      jsRound (l1.lng * 1000) = jsRound (l2.lng * 1000)) →
      sourceIdFor c l1 = sourceIdFor c l2 ∧
      (loadIsochrones (loadIsochrones m l1 c).1 l2 c).1.map.sources =
        m.map.sources ++ [sourceIdFor c l1]) ∧
    (¬(jsRound (l1.lat * 1000) = jsRound (l2.lat * 1000) ∧
       jsRound (l1.lng * 1000) = jsRound (l2.lng * 1000)) →
      sourceIdFor c l1 ≠ sourceIdFor c l2 ∧
      (loadIsochrones (loadIsochrones m l1 c).1 l2 c).1.map.sources =
        m.map.sources ++ [sourceIdFor c l1, sourceIdFor c l2]) := by
  obtain ⟨hf1, hf2, hf3⟩ := loadIsochrones_fresh_facts m l1 c hk1 hs1
  constructor
  · rintro ⟨hlat, hlng⟩
    have hsid : sourceIdFor c l1 = sourceIdFor c l2 := by
      rw [sourceIdFor, sourceIdFor, hlat, hlng]
    refine ⟨hsid, ?_⟩
    have hpresent : (loadIsochrones m l1 c).1.map.getSource (sourceIdFor c l2) = true := by
      rw [MapState.getSource, hf1, ← hsid, listHas_append]
      rw [MapState.getSource] at hs1
      rw [hs1]
      simp [listHas]
    rw [loadIsochrones_sources_of_present (loadIsochrones m l1 c).1 l2 c hpresent, hf1]
  · intro hne
    have hsidne : sourceIdFor c l1 ≠ sourceIdFor c l2 :=
      fun he => hne (sourceIdFor_inj c l1 l2 he)
    refine ⟨hsidne, ?_⟩
    have hkne : ((c, l2.lat, l2.lng) : CacheKey) ≠ (c, l1.lat, l1.lng) := by
      intro he
      simp only [Prod.mk.injEq] at he
      exact hne ⟨by rw [he.2.1], by rw [he.2.2]⟩
    have hkey2 : assocLookup (loadIsochrones m l1 c).1.isochroneData
        (c, l2.lat, l2.lng) = none := by
      rw [hf3 _ hkne]; exact hk2
    have hsrc2 : (loadIsochrones m l1 c).1.map.getSource (sourceIdFor c l2) = false := by
      rw [MapState.getSource, hf1, listHas_append]
      rw [MapState.getSource] at hs2
      rw [hs2]
      simp [listHas, hsidne]
    rw [loadIsochrones_sources_of_fresh (loadIsochrones m l1 c).1 l2 c hkey2 hsrc2, hf1,
      List.append_assoc]
    rfl

end CoffeeMilkBeer


namespace CoffeeMilkBeer

/-- A location ~11m north of `demoLoc`: quantizes to the same Source Key. -/
def demoLocB : Location := { lat := 43.6592, lng := -70.2568 }

/-- A location ~100m north of `demoLoc`: quantizes to a different Source
Key. -/
def demoLocC : Location := { lat := 43.66, lng := -70.2568 }

theorem jsRound_demoLatB : jsRound (demoLocB.lat * 1000) = 43659 := by
  show jsRound ((43.6592 : ℚ) * 1000) = 43659
  rw [jsRound, Int.floor_eq_iff] <;> norm_num

theorem jsRound_demoLatC : jsRound (demoLocC.lat * 1000) = 43660 := by
  show jsRound ((43.66 : ℚ) * 1000) = 43660
  rw [jsRound, Int.floor_eq_iff] <;> norm_num

theorem jsRound_demoLngB : jsRound (demoLocB.lng * 1000) = -70257 := jsRound_demoLng

theorem jsRound_demoLngC : jsRound (demoLocC.lng * 1000) = -70257 := jsRound_demoLng

theorem sourceKey_quantization_registration_witness :
    (sourceIdFor "coffee" demoLoc = sourceIdFor "coffee" demoLocB ∧
      (loadIsochrones (loadIsochrones demoManager demoLoc "coffee").1
          demoLocB "coffee").1.map.sources =
        demoManager.map.sources ++ [sourceIdFor "coffee" demoLoc]) ∧
    (sourceIdFor "coffee" demoLoc ≠ sourceIdFor "coffee" demoLocC ∧
      (loadIsochrones (loadIsochrones demoManager demoLoc "coffee").1
          demoLocC "coffee").1.map.sources =
        demoManager.map.sources ++
          [sourceIdFor "coffee" demoLoc, sourceIdFor "coffee" demoLocC]) :=
  ⟨(sourceKey_quantization_registration demoManager "coffee" demoLoc demoLocB
      rfl rfl rfl rfl).1
      ⟨by rw [jsRound_demoLat, jsRound_demoLatB], by rw [jsRound_demoLng, jsRound_demoLngB]⟩,
   (sourceKey_quantization_registration demoManager "coffee" demoLoc demoLocC
      rfl rfl rfl rfl).2
      (by
        rintro ⟨h1, _⟩
        rw [jsRound_demoLat, jsRound_demoLatC] at h1
        exact absurd h1 (by decide))⟩

end CoffeeMilkBeer

namespace CoffeeMilkBeer

/-! ## Counting occurrences in the Active Layer Set -/

/-- Occurrence count in a list of strings (the Active Layer Set is
duplicate-free in JS; the model tracks counts to make that precise). -/
def countStr : List String → String → ℕ
  | [], _ => 0
  | y :: rest, x => (if y = x then 1 else 0) + countStr rest x

theorem countStr_pos_iff_mem (l : List String) (y : String) :
    0 < countStr l y ↔ y ∈ l := by
  induction l with
  | nil => simp [countStr]
  | cons a rest ih =>
    by_cases h : a = y <;> simp [countStr, h, ih]
    exact fun hy => (h hy.symm).elim

theorem countStr_eq_zero_iff (l : List String) (y : String) :
    countStr l y = 0 ↔ y ∉ l := by
  rw [← countStr_pos_iff_mem]
  omega

theorem countStr_append (l1 l2 : List String) (y : String) :
    countStr (l1 ++ l2) y = countStr l1 y + countStr l2 y := by
  induction l1 with
  | nil => simp [countStr]
  | cons a rest ih => simp [countStr, ih]; omega

theorem insertUnique_countStr_ne (l : List String) (x y : String) (h : y ≠ x) :
    countStr (insertUnique l x) y = countStr l y := by
  rw [insertUnique]
  by_cases hx : listHas l x = true <;> simp [hx, countStr_append, countStr, h]
  intro he
  exact absurd he.symm h

theorem insertUnique_countStr_self (l : List String) (x : String)
    (h : countStr l x ≤ 1) : countStr (insertUnique l x) x = 1 := by
  rw [insertUnique]
  by_cases hx : listHas l x = true <;> simp [hx, countStr_append, countStr]
  · have := (countStr_pos_iff_mem l x).mpr ((listHas_iff_mem l x).mp hx)
    omega
  · have hx' : x ∉ l := fun hm => hx ((listHas_iff_mem l x).mpr hm)
    exact (countStr_eq_zero_iff l x).mpr hx'

theorem insertUnique_countStr_le (l : List String) (x y : String)
    (h : countStr l y ≤ 1) : countStr (insertUnique l x) y ≤ 1 := by
  by_cases hxy : y = x
  · subst hxy
    rw [insertUnique_countStr_self l y h]
  · rw [insertUnique_countStr_ne l x y hxy]
    exact h

theorem eraseFirst_countStr_self (l : List String) (x : String) :
    countStr (eraseFirst l x) x = countStr l x - 1 := by
  induction l with
  | nil => simp [eraseFirst, countStr]
  | cons a rest ih =>
    by_cases h : a = x <;> simp [eraseFirst, countStr, h, ih]

theorem eraseFirst_countStr_ne (l : List String) (x y : String) (h : y ≠ x) :
    countStr (eraseFirst l x) y = countStr l y := by
  induction l with
  | nil => simp [eraseFirst]
  | cons a rest ih =>
    by_cases ha : a = x
    · subst ha
      simp [eraseFirst, countStr, fun he : a = y => h (he ▸ rfl)]
      intro he
      exact absurd he.symm h
    · simp [eraseFirst, ha, countStr, ih]

theorem countStr_le_one_of_nodup (l : List String) (hn : l.Nodup) (y : String) :
    countStr l y ≤ 1 := by
  induction l with
  | nil => simp [countStr]
  | cons a rest ih =>
    obtain ⟨hna, hnr⟩ := List.nodup_cons.mp hn
    by_cases h : a = y
    · subst h
      have : countStr rest a = 0 := (countStr_eq_zero_iff rest a).mpr hna
      simp [countStr, this]
    · simp [countStr, h]
      exact ih hnr

end CoffeeMilkBeer

namespace CoffeeMilkBeer

/-! ## Step lemmas for the layer lifecycle -/

/-- The layer ids currently registered with the renderer. -/
def mapIds (m : IsochroneManager) : List String :=
  m.map.layers.map (fun l => l.id)

theorem getLayer_eq_listHas (m : IsochroneManager) (y : String) :
    m.map.getLayer y = listHas (mapIds m) y := rfl

theorem layerIdFor_inj (c : String) (t1 t2 : ℤ)
    (h : layerIdFor c t1 = layerIdFor c t2) : t1 = t2 := by
  rw [layerIdFor, layerIdFor] at h
  have hd := congrArg String.data h
  simp only [String.data_append, List.append_assoc] at hd
  exact intToString_inj t1 t2 (String.ext
    (List.append_cancel_left (List.append_cancel_left hd)))

/-- A successful `addLayer` for band `t` (no duplicate layer, renderer does
not reject): the id is appended to both the renderer layers and the active
set. -/
theorem addOne_success (m : IsochroneManager) (c src : String) (loc : Location)
    (t : ℤ)
    (hget : m.map.getLayer (layerIdFor c t) = false)
    (hfail : m.map.addLayerFails (layerIdFor c t) = false) :
    (addOneIsochroneLayer m c src loc t).activeLayers =
      insertUnique m.activeLayers (layerIdFor c t) ∧
    mapIds (addOneIsochroneLayer m c src loc t) = mapIds m ++ [layerIdFor c t] ∧
    (addOneIsochroneLayer m c src loc t).map.addLayerFails = m.map.addLayerFails := by
  have hid2 : (createLayerConfig c t).id = layerIdFor c t := rfl
  refine ⟨?_, ?_, ?_⟩ <;>
    simp [addOneIsochroneLayer, MapState.addLayer, mapIds, hid2, hget, hfail]

/-- A rejected `addLayer` (duplicate id or renderer failure) is caught and
leaves the manager unchanged. -/
theorem addOne_fail (m : IsochroneManager) (c src : String) (loc : Location)
    (t : ℤ)
    (h : m.map.getLayer (layerIdFor c t) = true ∨
      m.map.addLayerFails (layerIdFor c t) = true) :
    addOneIsochroneLayer m c src loc t = m := by
  have hid2 : (createLayerConfig c t).id = layerIdFor c t := rfl
  rcases h with h | h <;>
    simp [addOneIsochroneLayer, MapState.addLayer, hid2, h]

/-- Removing band `t` when the renderer has the layer. -/
theorem removeOne_present (m : IsochroneManager) (c : String) (t : ℤ)
    (h : m.map.getLayer (layerIdFor c t) = true) :
    (removeOneIsochroneLayer m c t).activeLayers =
      eraseFirst m.activeLayers (layerIdFor c t) ∧
    (∀ y, y ∈ mapIds (removeOneIsochroneLayer m c t) ↔
      y ∈ mapIds m ∧ y ≠ layerIdFor c t) ∧
    (removeOneIsochroneLayer m c t).map.addLayerFails = m.map.addLayerFails := by
  refine ⟨by simp [removeOneIsochroneLayer, h], ?_,
    by simp [removeOneIsochroneLayer, h, MapState.removeLayer]⟩
  intro y
  simp only [removeOneIsochroneLayer, h, if_true, mapIds, MapState.removeLayer,
    List.mem_map, List.mem_filter]
  constructor
  · rintro ⟨l, ⟨hl, hpred⟩, rfl⟩
    exact ⟨⟨l, hl, rfl⟩, by simpa using hpred⟩
  · rintro ⟨⟨l, hl, rfl⟩, hne⟩
    exact ⟨l, ⟨hl, by simpa using hne⟩, rfl⟩

/-- Removing band `t` when the renderer does not have the layer is a no-op. -/
theorem removeOne_absent (m : IsochroneManager) (c : String) (t : ℤ)
    (h : m.map.getLayer (layerIdFor c t) = false) :
    removeOneIsochroneLayer m c t = m := by
  simp only [removeOneIsochroneLayer, h, Bool.false_eq_true, if_false]

end CoffeeMilkBeer

namespace CoffeeMilkBeer

theorem listHas_eq_false_iff (l : List String) (y : String) :
    listHas l y = false ↔ y ∉ l := by
  constructor
  · intro h hm
    rw [(listHas_iff_mem l y).mpr hm] at h
    cases h
  · intro hm
    rcases hh : listHas l y with _ | _
    · rfl
    · exact absurd ((listHas_iff_mem l y).mp hh) hm

theorem insertUnique_mem_self (l : List String) (x : String) :
    x ∈ insertUnique l x := by
  rw [insertUnique]
  by_cases h : listHas l x = true <;> simp [h]
  exact (listHas_iff_mem l x).mp h

theorem insertUnique_mem_of_mem (l : List String) (x y : String) (h : y ∈ l) :
    y ∈ insertUnique l x := by
  rw [insertUnique]
  by_cases hx : listHas l x = true <;> simp [hx, h]

/-- `addOneIsochroneLayer` never changes the renderer failure oracle. -/
theorem addOne_oracle (m : IsochroneManager) (c src : String) (loc : Location)
    (t : ℤ) :
    (addOneIsochroneLayer m c src loc t).map.addLayerFails = m.map.addLayerFails := by
  rcases hget : m.map.getLayer (layerIdFor c t) with _ | _
  · rcases hfail : m.map.addLayerFails (layerIdFor c t) with _ | _
    · exact (addOne_success m c src loc t hget hfail).2.2
    · rw [addOne_fail m c src loc t (Or.inr hfail)]
  · rw [addOne_fail m c src loc t (Or.inl hget)]

theorem addOne_count_frame (m : IsochroneManager) (c src : String) (loc : Location)
    (t : ℤ) (y : String) (hy : y ≠ layerIdFor c t) :
    countStr (addOneIsochroneLayer m c src loc t).activeLayers y =
      countStr m.activeLayers y := by
  rcases hget : m.map.getLayer (layerIdFor c t) with _ | _
  · rcases hfail : m.map.addLayerFails (layerIdFor c t) with _ | _
    · rw [(addOne_success m c src loc t hget hfail).1,
        insertUnique_countStr_ne _ _ _ hy]
    · rw [addOne_fail m c src loc t (Or.inr hfail)]
  · rw [addOne_fail m c src loc t (Or.inl hget)]

theorem addOne_memMap_frame (m : IsochroneManager) (c src : String) (loc : Location)
    (t : ℤ) (y : String) (hy : y ≠ layerIdFor c t) :
    y ∈ mapIds (addOneIsochroneLayer m c src loc t) ↔ y ∈ mapIds m := by
  rcases hget : m.map.getLayer (layerIdFor c t) with _ | _
  · rcases hfail : m.map.addLayerFails (layerIdFor c t) with _ | _
    · rw [(addOne_success m c src loc t hget hfail).2.1]
      simp [hy]
    · rw [addOne_fail m c src loc t (Or.inr hfail)]
  · rw [addOne_fail m c src loc t (Or.inl hget)]

theorem addOne_memMap_mono (m : IsochroneManager) (c src : String) (loc : Location)
    (t : ℤ) (y : String) (hy : y ∈ mapIds m) :
    y ∈ mapIds (addOneIsochroneLayer m c src loc t) := by
  rcases hget : m.map.getLayer (layerIdFor c t) with _ | _
  · rcases hfail : m.map.addLayerFails (layerIdFor c t) with _ | _
    · rw [(addOne_success m c src loc t hget hfail).2.1]
      simp [hy]
    · rw [addOne_fail m c src loc t (Or.inr hfail)]; exact hy
  · rw [addOne_fail m c src loc t (Or.inl hget)]; exact hy

theorem addOne_memActive_mono (m : IsochroneManager) (c src : String)
    (loc : Location) (t : ℤ) (y : String) (hy : y ∈ m.activeLayers) :
    y ∈ (addOneIsochroneLayer m c src loc t).activeLayers := by
  rcases hget : m.map.getLayer (layerIdFor c t) with _ | _
  · rcases hfail : m.map.addLayerFails (layerIdFor c t) with _ | _
    · rw [(addOne_success m c src loc t hget hfail).1]
      exact insertUnique_mem_of_mem _ _ _ hy
    · rw [addOne_fail m c src loc t (Or.inr hfail)]; exact hy
  · rw [addOne_fail m c src loc t (Or.inl hget)]; exact hy

theorem removeOne_count_frame (m : IsochroneManager) (c : String) (t : ℤ)
    (y : String) (hy : y ≠ layerIdFor c t) :
    countStr (removeOneIsochroneLayer m c t).activeLayers y =
      countStr m.activeLayers y := by
  rcases hget : m.map.getLayer (layerIdFor c t) with _ | _
  · rw [removeOne_absent m c t hget]
  · rw [(removeOne_present m c t hget).1, eraseFirst_countStr_ne _ _ _ hy]

theorem removeOne_memMap_frame (m : IsochroneManager) (c : String) (t : ℤ)
    (y : String) (hy : y ≠ layerIdFor c t) :
    y ∈ mapIds (removeOneIsochroneLayer m c t) ↔ y ∈ mapIds m := by
  rcases hget : m.map.getLayer (layerIdFor c t) with _ | _
  · rw [removeOne_absent m c t hget]
  · rw [(removeOne_present m c t hget).2.1 y]
    simp [hy]

theorem removeOne_count_mono (m : IsochroneManager) (c : String) (t : ℤ)
    (y : String) :
    countStr (removeOneIsochroneLayer m c t).activeLayers y ≤
      countStr m.activeLayers y := by
  by_cases hy : y = layerIdFor c t
  · rcases hget : m.map.getLayer (layerIdFor c t) with _ | _
    · rw [removeOne_absent m c t hget]
    · rw [(removeOne_present m c t hget).1, hy, eraseFirst_countStr_self]
      omega
  · rw [removeOne_count_frame m c t y hy]

end CoffeeMilkBeer

namespace CoffeeMilkBeer

/-- The Active Layer Set invariant for one layer id: the id occurs at most
once (a JS `Set` holds no duplicates), and an active id is backed by a
renderer layer.  Both `addIsochroneLayers` and `removeIsochroneLayers`
preserve it. -/
def layerInv (m : IsochroneManager) (id : String) : Prop :=
  countStr m.activeLayers id ≤ 1 ∧
  (0 < countStr m.activeLayers id → id ∈ mapIds m)

theorem addOne_inv (m : IsochroneManager) (c src : String) (loc : Location)
    (t : ℤ) (id : String) (h : layerInv m id) :
    layerInv (addOneIsochroneLayer m c src loc t) id := by
  obtain ⟨h1, h2⟩ := h
  rcases hget : m.map.getLayer (layerIdFor c t) with _ | _
  · rcases hfail : m.map.addLayerFails (layerIdFor c t) with _ | _
    · obtain ⟨ha, hm, _⟩ := addOne_success m c src loc t hget hfail
      by_cases hy : id = layerIdFor c t
      · constructor
        · rw [ha, hy, insertUnique_countStr_self _ _ (hy ▸ h1)]
        · intro _
          rw [hm, hy]
          simp
      · constructor
        · rw [ha, insertUnique_countStr_ne _ _ _ hy]
          exact h1
        · intro hpos
          rw [ha, insertUnique_countStr_ne _ _ _ hy] at hpos
          rw [hm]
          simp [h2 hpos]
    · rw [addOne_fail m c src loc t (Or.inr hfail)]
      exact ⟨h1, h2⟩
  · rw [addOne_fail m c src loc t (Or.inl hget)]
    exact ⟨h1, h2⟩

theorem removeOne_inv (m : IsochroneManager) (c : String) (t : ℤ)
    (id : String) (h : layerInv m id) :
    layerInv (removeOneIsochroneLayer m c t) id := by
  obtain ⟨h1, h2⟩ := h
  rcases hget : m.map.getLayer (layerIdFor c t) with _ | _
  · rw [removeOne_absent m c t hget]
    exact ⟨h1, h2⟩
  · obtain ⟨ha, hm, _⟩ := removeOne_present m c t hget
    by_cases hy : id = layerIdFor c t
    · rw [hy] at h1
      constructor
      · rw [ha, hy, eraseFirst_countStr_self]
        omega
      · intro hpos
        rw [ha, hy, eraseFirst_countStr_self] at hpos
        omega
    · constructor
      · rw [ha, eraseFirst_countStr_ne _ _ _ hy]
        exact h1
      · intro hpos
        rw [ha, eraseFirst_countStr_ne _ _ _ hy] at hpos
        rw [hm]
        exact ⟨h2 hpos, hy⟩

/-! ## Fold lemmas over the configured band list -/

theorem foldAdd_inv (c src : String) (loc : Location) (ts : List ℤ)
    (m : IsochroneManager) (id : String) (h : layerInv m id) :
    layerInv (ts.foldl (fun acc t => addOneIsochroneLayer acc c src loc t) m) id := by
  induction ts generalizing m with
  | nil => exact h
  | cons t rest ih => exact ih _ (addOne_inv m c src loc t id h)

theorem foldAdd_count_frame (c src : String) (loc : Location) (ts : List ℤ)
    (m : IsochroneManager) (y : String) (hy : ∀ t ∈ ts, y ≠ layerIdFor c t) :
    countStr ((ts.foldl (fun acc t => addOneIsochroneLayer acc c src loc t) m)).activeLayers y =
      countStr m.activeLayers y := by
  induction ts generalizing m with
  | nil => rfl
  | cons t rest ih =>
    rw [List.foldl_cons, ih _ (fun t' ht' => hy t' (List.mem_cons_of_mem t ht')),
      addOne_count_frame m c src loc t y (hy t (List.mem_cons_self t rest))]

theorem foldAdd_oracle (c src : String) (loc : Location) (ts : List ℤ)
    (m : IsochroneManager) :
    (ts.foldl (fun acc t => addOneIsochroneLayer acc c src loc t) m).map.addLayerFails =
      m.map.addLayerFails := by
  induction ts generalizing m with
  | nil => rfl
  | cons t rest ih => rw [List.foldl_cons, ih, addOne_oracle]

theorem foldAdd_memActive_mono (c src : String) (loc : Location) (ts : List ℤ)
    (m : IsochroneManager) (y : String) (hy : y ∈ m.activeLayers) :
    y ∈ (ts.foldl (fun acc t => addOneIsochroneLayer acc c src loc t) m).activeLayers := by
  induction ts generalizing m with
  | nil => exact hy
  | cons t rest ih =>
    exact ih _ (addOne_memActive_mono m c src loc t y hy)

theorem foldAdd_memMap_mono (c src : String) (loc : Location) (ts : List ℤ)
    (m : IsochroneManager) (y : String) (hy : y ∈ mapIds m) :
    y ∈ mapIds (ts.foldl (fun acc t => addOneIsochroneLayer acc c src loc t) m) := by
  induction ts generalizing m with
  | nil => exact hy
  | cons t rest ih =>
    exact ih _ (addOne_memMap_mono m c src loc t y hy)

theorem foldAdd_memMap_frame (c src : String) (loc : Location) (ts : List ℤ)
    (m : IsochroneManager) (y : String) (hy : ∀ t ∈ ts, y ≠ layerIdFor c t) :
    y ∈ mapIds (ts.foldl (fun acc t => addOneIsochroneLayer acc c src loc t) m) ↔
      y ∈ mapIds m := by
  induction ts generalizing m with
  | nil => exact Iff.rfl
  | cons t rest ih =>
    rw [List.foldl_cons, ih _ (fun t' ht' => hy t' (List.mem_cons_of_mem t ht')),
      addOne_memMap_frame m c src loc t y (hy t (List.mem_cons_self t rest))]

theorem foldRemove_count_frame (c : String) (ts : List ℤ)
    (m : IsochroneManager) (y : String) (hy : ∀ t ∈ ts, y ≠ layerIdFor c t) :
    countStr ((ts.foldl (fun acc t => removeOneIsochroneLayer acc c t) m)).activeLayers y =
      countStr m.activeLayers y := by
  induction ts generalizing m with
  | nil => rfl
  | cons t rest ih =>
    rw [List.foldl_cons, ih _ (fun t' ht' => hy t' (List.mem_cons_of_mem t ht')),
      removeOne_count_frame m c t y (hy t (List.mem_cons_self t rest))]

theorem foldRemove_memMap_frame (c : String) (ts : List ℤ)
    (m : IsochroneManager) (y : String) (hy : ∀ t ∈ ts, y ≠ layerIdFor c t) :
    y ∈ mapIds (ts.foldl (fun acc t => removeOneIsochroneLayer acc c t) m) ↔
      y ∈ mapIds m := by
  induction ts generalizing m with
  | nil => exact Iff.rfl
  | cons t rest ih =>
    rw [List.foldl_cons, ih _ (fun t' ht' => hy t' (List.mem_cons_of_mem t ht')),
      removeOne_memMap_frame m c t y (hy t (List.mem_cons_self t rest))]

theorem foldRemove_count_mono (c : String) (ts : List ℤ)
    (m : IsochroneManager) (y : String) :
    countStr ((ts.foldl (fun acc t => removeOneIsochroneLayer acc c t) m)).activeLayers y ≤
      countStr m.activeLayers y := by
  induction ts generalizing m with
  | nil => exact le_refl _
  | cons t rest ih =>
    exact le_trans (ih _) (removeOne_count_mono m c t y)

/-- After `removeIsochroneLayers`-style folding over a band list containing
the band of `id`, an id satisfying the invariant is no longer active. -/
theorem foldRemove_zero (c : String) (ts : List ℤ) (m : IsochroneManager)
    (id : String) (hinv : layerInv m id)
    (hid : ∃ t ∈ ts, id = layerIdFor c t) :
    countStr ((ts.foldl (fun acc t => removeOneIsochroneLayer acc c t) m)).activeLayers id = 0 := by
  induction ts generalizing m with
  | nil => obtain ⟨t, ht, _⟩ := hid; cases ht
  | cons t rest ih =>
    obtain ⟨t0, ht0, hid0⟩ := hid
    rw [List.foldl_cons]
    by_cases hy : id = layerIdFor c t
    · have hzero : countStr (removeOneIsochroneLayer m c t).activeLayers id = 0 := by
        rcases hget : m.map.getLayer (layerIdFor c t) with _ | _
        · rw [removeOne_absent m c t hget]
          rcases Nat.eq_zero_or_pos (countStr m.activeLayers id) with h0 | hpos
          · exact h0
          · exfalso
            have hm := hinv.2 hpos
            rw [getLayer_eq_listHas] at hget
            rw [hy] at hm
            exact absurd hm ((listHas_eq_false_iff _ _).mp hget)
        · rw [(removeOne_present m c t hget).1, hy, eraseFirst_countStr_self]
          have := hinv.1
          rw [hy] at this
          omega
      have := foldRemove_count_mono c rest (removeOneIsochroneLayer m c t) id
      omega
    · rcases List.mem_cons.mp ht0 with rfl | hrest
      · exact absurd hid0 hy
      · exact ih (removeOneIsochroneLayer m c t) (removeOne_inv m c t id hinv)
          ⟨t0, hrest, hid0⟩

end CoffeeMilkBeer

namespace CoffeeMilkBeer

/-- `addIsochroneLayers` either does nothing (no recorded source, or the
`null` location aborts the first band) or folds the per-band add over the
configured time bands. -/
theorem addIsochroneLayers_cases (m : IsochroneManager) (c : String)
    (d : IsochroneData) :
    addIsochroneLayers m c d = m ∨
    ∃ src loc, assocLookup m.pmtilesSources c = some src ∧
      m.currentLocation = some loc ∧
      addIsochroneLayers m c d =
        timeIntervals.foldl (fun acc t => addOneIsochroneLayer acc c src loc t) m := by
  rcases hps : assocLookup m.pmtilesSources c with _ | src
  · left; simp [addIsochroneLayers, hps]
  · rcases hcl : m.currentLocation with _ | loc
    · left; simp [addIsochroneLayers, hps, hcl]
    · right; exact ⟨src, loc, rfl, rfl, by simp [addIsochroneLayers, hps, hcl]⟩

/-- During the per-band fold, a band whose `addLayer` is not rejected and
whose layer id is not yet present ends up both active and registered —
independently of what happens to the other bands. -/
theorem foldAdd_adds (c src : String) (loc : Location) (ts : List ℤ)
    (m : IsochroneManager) (t' : ℤ) (ht' : t' ∈ ts)
    (hok : m.map.addLayerFails (layerIdFor c t') = false)
    (hget : m.map.getLayer (layerIdFor c t') = false) :
    layerIdFor c t' ∈
      (ts.foldl (fun acc t => addOneIsochroneLayer acc c src loc t) m).activeLayers ∧
    layerIdFor c t' ∈
      mapIds (ts.foldl (fun acc t => addOneIsochroneLayer acc c src loc t) m) := by
  induction ts generalizing m with
  | nil => cases ht'
  | cons t rest ih =>
    rw [List.foldl_cons]
    by_cases hts : t = t'
    · subst hts
      obtain ⟨ha, hm, _⟩ := addOne_success m c src loc t hget hok
      constructor
      · apply foldAdd_memActive_mono
        rw [ha]
        exact insertUnique_mem_self _ _
      · apply foldAdd_memMap_mono
        rw [hm]
        simp
    · have hne : layerIdFor c t' ≠ layerIdFor c t :=
        fun he => hts (layerIdFor_inj c t t' he.symm)
      have hrest : t' ∈ rest := by
        rcases List.mem_cons.mp ht' with h | h
        · exact absurd h.symm hts
        · exact h
      have hnotmap : layerIdFor c t' ∉ mapIds (addOneIsochroneLayer m c src loc t) := by
        rw [addOne_memMap_frame m c src loc t _ hne]
        rw [getLayer_eq_listHas] at hget
        exact (listHas_eq_false_iff _ _).mp hget
      refine ih (addOneIsochroneLayer m c src loc t) hrest ?_ ?_
      · rw [addOne_oracle]
        exact hok
      · rw [getLayer_eq_listHas]
        exact (listHas_eq_false_iff _ _).mpr hnotmap

/-- A band whose `addLayer` the renderer rejects contributes nothing to the
Active Layer Set across the whole fold. -/
theorem foldAdd_count_fail (c src : String) (loc : Location) (ts : List ℤ)
    (m : IsochroneManager) (y : String)
    (hyfail : m.map.addLayerFails y = true) :
    countStr ((ts.foldl (fun acc t => addOneIsochroneLayer acc c src loc t) m)).activeLayers y =
      countStr m.activeLayers y := by
  induction ts generalizing m with
  | nil => rfl
  | cons t rest ih =>
    rw [List.foldl_cons]
    by_cases hy : y = layerIdFor c t
    · rw [addOne_fail m c src loc t (Or.inr (hy ▸ hyfail)), ih m hyfail]
    · rw [ih _ (by rw [addOne_oracle]; exact hyfail),
        addOne_count_frame m c src loc t y hy]

/-- C4 counterexample: with coffee's three layers already active (the state
after a successful load plus `addIsochroneLayers`), calling
`addIsochroneLayers` again (every `addLayer` throws on the duplicate ids,
caught) and then `removeIsochroneLayers` empties the Active Layer Set
instead of restoring it. -/
theorem addRemove_roundTrip_cex :
    (removeIsochroneLayers
      (addIsochroneLayers
        (addIsochroneLayers (loadIsochrones demoManager demoLoc "coffee").1 "coffee"
          (createMockIsochroneData "coffee" demoLoc))
        "coffee" (createMockIsochroneData "coffee" demoLoc))
      "coffee").activeLayers ≠
    (addIsochroneLayers (loadIsochrones demoManager demoLoc "coffee").1 "coffee"
      (createMockIsochroneData "coffee" demoLoc)).activeLayers := by
  decide

/-- C4 (amended): `addIsochroneLayers(C, d)` immediately followed by
`removeIsochroneLayers(C)` restores the Active Layer Set exactly, provided
no Layer Id of category `C` is active before the add (in particular from
any state in which `C` has not been activated yet). -/
theorem addRemove_roundTrip_of_not_active (m : IsochroneManager) (c : String)
    (d : IsochroneData)
    (h : ∀ t ∈ timeIntervals, layerIdFor c t ∉ m.activeLayers) :
    ∀ y, y ∈ (removeIsochroneLayers (addIsochroneLayers m c d) c).activeLayers ↔
      y ∈ m.activeLayers := by
  intro y
  have hrm : removeIsochroneLayers (addIsochroneLayers m c d) c =
      timeIntervals.foldl (fun acc t => removeOneIsochroneLayer acc c t)
        (addIsochroneLayers m c d) := rfl
  by_cases hy : ∀ t ∈ timeIntervals, y ≠ layerIdFor c t
  · rw [← countStr_pos_iff_mem, ← countStr_pos_iff_mem, hrm,
      foldRemove_count_frame c timeIntervals _ y hy]
    have hadd : countStr (addIsochroneLayers m c d).activeLayers y =
        countStr m.activeLayers y := by
      rcases addIsochroneLayers_cases m c d with heq | ⟨src, loc, _, _, heq⟩
      · rw [heq]
      · rw [heq]
        exact foldAdd_count_frame c src loc timeIntervals m y hy
    rw [hadd]
  · push_neg at hy
    obtain ⟨t, ht, hyt⟩ := hy
    have hnot : y ∉ m.activeLayers := by rw [hyt]; exact h t ht
    constructor
    · intro hmem
      exfalso
      have hzero : countStr m.activeLayers y = 0 := (countStr_eq_zero_iff _ _).mpr hnot
      have hinv : layerInv m y := ⟨by omega, fun hpos => by omega⟩
      have hinvAdd : layerInv (addIsochroneLayers m c d) y := by
        rcases addIsochroneLayers_cases m c d with heq | ⟨src, loc, _, _, heq⟩
        · rw [heq]; exact hinv
        · rw [heq]; exact foldAdd_inv c src loc timeIntervals m y hinv
      have hz := foldRemove_zero c timeIntervals (addIsochroneLayers m c d) y hinvAdd
        ⟨t, ht, hyt⟩
      rw [hrm, ← countStr_pos_iff_mem] at hmem
      omega
    · intro hmem
      exact absurd hmem hnot

theorem addRemove_roundTrip_witness :
    ("coffee-isochrone-5" ∈
      (removeIsochroneLayers
        (addIsochroneLayers (loadIsochrones demoManager demoLoc "coffee").1 "coffee"
          (createMockIsochroneData "coffee" demoLoc)) "coffee").activeLayers ↔
      "coffee-isochrone-5" ∈ (loadIsochrones demoManager demoLoc "coffee").1.activeLayers) :=
  addRemove_roundTrip_of_not_active (loadIsochrones demoManager demoLoc "coffee").1
    "coffee" (createMockIsochroneData "coffee" demoLoc) (by decide) "coffee-isochrone-5"

end CoffeeMilkBeer

namespace CoffeeMilkBeer

/-- C5: `removeIsochroneLayers(C)` removes exactly the Layer Ids derived
from `C` across the configured time bands — afterwards none of them is
active — and leaves every other id's membership in the Active Layer Set
(and in the renderer's layer set) unchanged.  The hypotheses state the JS
`Set` facts: the active set has no duplicates, and an active `C`-layer is
backed by a renderer layer. -/
theorem removeIsochroneLayers_exact (m : IsochroneManager) (c : String)
    (hnodup : m.activeLayers.Nodup)
    (hsub : ∀ t ∈ timeIntervals, layerIdFor c t ∈ m.activeLayers →
      m.map.getLayer (layerIdFor c t) = true) :
    (∀ t ∈ timeIntervals, layerIdFor c t ∉ (removeIsochroneLayers m c).activeLayers) ∧
    (∀ y, (∀ t ∈ timeIntervals, y ≠ layerIdFor c t) →
      ((y ∈ (removeIsochroneLayers m c).activeLayers ↔ y ∈ m.activeLayers) ∧
       (y ∈ mapIds (removeIsochroneLayers m c) ↔ y ∈ mapIds m))) := by
  have hrm : removeIsochroneLayers m c =
      timeIntervals.foldl (fun acc t => removeOneIsochroneLayer acc c t) m := rfl
  constructor
  · intro t ht
    have hinv : layerInv m (layerIdFor c t) := by
      refine ⟨countStr_le_one_of_nodup _ hnodup _, fun hpos => ?_⟩
      have hmem := (countStr_pos_iff_mem _ _).mp hpos
      have hg := hsub t ht hmem
      rw [getLayer_eq_listHas] at hg
      exact (listHas_iff_mem _ _).mp hg
    have hz := foldRemove_zero c timeIntervals m _ hinv ⟨t, ht, rfl⟩
    rw [hrm, ← countStr_pos_iff_mem]
    omega
  · intro y hy
    rw [hrm]
    exact ⟨by rw [← countStr_pos_iff_mem, ← countStr_pos_iff_mem,
        foldRemove_count_frame c _ m y hy],
      foldRemove_memMap_frame c _ m y hy⟩

/-- A layer as registered by `addIsochroneLayers` (concrete values for the
patched `source`/`source-layer` fields). -/
def activeLayerFor (c : String) (t : ℤ) : LayerSpec :=
  { createLayerConfig c t with
    source := some "pm"
    sourceLayer := some "coffee_Portland_ME_isochrones" }

/-- A manager with grocery, coffee and bar layers all active — the state
after activating all three categories. -/
def fullManager : IsochroneManager :=
  { map :=
    { sources := ["pm"]
      layers :=
        [activeLayerFor "grocery" 5, activeLayerFor "grocery" 10,
         activeLayerFor "grocery" 15, activeLayerFor "coffee" 5,
         activeLayerFor "coffee" 10, activeLayerFor "coffee" 15,
         activeLayerFor "bar" 5, activeLayerFor "bar" 10, activeLayerFor "bar" 15]
      sourceLoadsInTime := fun _ => true
      addLayerFails := fun _ => false }
    isochroneData := []
    activeLayers :=
      ["grocery-isochrone-5", "grocery-isochrone-10", "grocery-isochrone-15",
       "coffee-isochrone-5", "coffee-isochrone-10", "coffee-isochrone-15",
       "bar-isochrone-5", "bar-isochrone-10", "bar-isochrone-15"]
    currentLocation := none
    pmtilesSources := [("grocery", "pm"), ("coffee", "pm"), ("bar", "pm")] }

theorem removeIsochroneLayers_exact_witness :
    (layerIdFor "grocery" 5 ∉ (removeIsochroneLayers fullManager "grocery").activeLayers) ∧
    ("coffee-isochrone-5" ∈ (removeIsochroneLayers fullManager "grocery").activeLayers ↔
      "coffee-isochrone-5" ∈ fullManager.activeLayers) ∧
    ("bar-isochrone-15" ∈ (removeIsochroneLayers fullManager "grocery").activeLayers ↔
      "bar-isochrone-15" ∈ fullManager.activeLayers) :=
  ⟨(removeIsochroneLayers_exact fullManager "grocery" (by decide) (by decide)).1
      5 (by decide),
   ((removeIsochroneLayers_exact fullManager "grocery" (by decide) (by decide)).2
      "coffee-isochrone-5" (by decide)).1,
   ((removeIsochroneLayers_exact fullManager "grocery" (by decide) (by decide)).2
      "bar-isochrone-15" (by decide)).1⟩

/-- C6: inside `addIsochroneLayers`, a renderer-level rejection of one
band's `addLayer` is caught (that band simply stays inactive) and does not
abort the remaining bands: any other band whose add is not rejected and
whose layer is not already present is still attempted and added — to the
renderer and to the Active Layer Set. -/
theorem addIsochroneLayers_partial_failure (m : IsochroneManager) (c : String)
    (d : IsochroneData) (src : String) (loc : Location)
    (hsrc : assocLookup m.pmtilesSources c = some src)
    (hloc : m.currentLocation = some loc)
    (t t' : ℤ) (ht : t ∈ timeIntervals) (ht' : t' ∈ timeIntervals) (hne : t ≠ t')
    (hfail : m.map.addLayerFails (layerIdFor c t) = true)
    (hok : m.map.addLayerFails (layerIdFor c t') = false)
    (hnotyet : m.map.getLayer (layerIdFor c t') = false) :
    layerIdFor c t' ∈ (addIsochroneLayers m c d).activeLayers ∧
    layerIdFor c t' ∈ mapIds (addIsochroneLayers m c d) ∧
    countStr (addIsochroneLayers m c d).activeLayers (layerIdFor c t) =
      countStr m.activeLayers (layerIdFor c t) := by
  rw [show addIsochroneLayers m c d =
      timeIntervals.foldl (fun acc t => addOneIsochroneLayer acc c src loc t) m from
    by simp [addIsochroneLayers, hsrc, hloc]]
  obtain ⟨h1, h2⟩ := foldAdd_adds c src loc timeIntervals m t' ht' hok hnotyet
  exact ⟨h1, h2, foldAdd_count_fail c src loc timeIntervals m _ hfail⟩

/-- A renderer that rejects `addLayer` for `coffee-isochrone-5` only. -/
def failingManager : IsochroneManager :=
  { map :=
    { sources := ["pm"]
      layers := []
      sourceLoadsInTime := fun _ => true
      addLayerFails := fun s => s == "coffee-isochrone-5" }
    isochroneData := []
    activeLayers := []
    currentLocation := some demoLoc
    pmtilesSources := [("coffee", "pm")] }

theorem addIsochroneLayers_partial_failure_witness :
    layerIdFor "coffee" 10 ∈
      (addIsochroneLayers failingManager "coffee"
        (createMockIsochroneData "coffee" demoLoc)).activeLayers ∧
    layerIdFor "coffee" 10 ∈
      mapIds (addIsochroneLayers failingManager "coffee"
        (createMockIsochroneData "coffee" demoLoc)) ∧
    countStr (addIsochroneLayers failingManager "coffee"
        (createMockIsochroneData "coffee" demoLoc)).activeLayers
      (layerIdFor "coffee" 5) =
      countStr failingManager.activeLayers (layerIdFor "coffee" 5) :=
  addIsochroneLayers_partial_failure failingManager "coffee"
    (createMockIsochroneData "coffee" demoLoc) "pm" demoLoc rfl rfl 5 10
    (by decide) (by decide) (by decide) (by decide) (by decide) rfl

end CoffeeMilkBeer
